import Mathlib

/-
Shallow embedding of the cfile repository (a Rust wrapper around the C stdio
FILE API) and verification of its specification claims.

The repository has two variants of the wrapper:
  - the legacy variant (src/cfile.rs) using a custom Error enum (src/error.rs);
  - the revised variant (src/lib.rs) using the standard io Error value
    obtained from last_os_error().

The native C library (fopen, fclose, fread, fwrite, fseek, ftell, feof) is
modelled by an explicit state: a FileState for one open stream (contents,
position, end-of-file indicator), an FS for the filesystem (which paths
exist), and a Sys for the ambient OS state (the errno variable, the
ErrorKind that last_os_error() would currently report, whether a native
fclose succeeds, and an optional native read fault).  Paths and mode
strings are byte lists; a CString conversion fails exactly when the bytes
contain an embedded NUL (byte 0).
-/

deriving instance DecidableEq for Except

namespace CFileSpec

/-- ErrorKind of a standard io Error, reduced to the single distinction the
revised code inspects: whether the kind is UnexpectedEof. -/
inductive IOKind where
  | unexpectedEof : IOKind
  | other : IOKind
deriving DecidableEq, Repr

/-- Model of a standard io Error produced by last_os_error(): the raw OS
code together with its ErrorKind. -/
structure IOError where
  code : Nat
  kind : IOKind
deriving DecidableEq, Repr

/-- Legacy error enum from src/error.rs. -/
inductive Err where
  | Errno : Nat → Err
  | BadPath : Err
  | EndOfFile : Nat → Err
  | WriteError : Nat → Nat → Err
deriving DecidableEq, Repr

/-- Accessor Error::errno from src/error.rs: the carried native code for
Errno and WriteError, and 0 for every other variant. -/
def Err.errno : Err → Nat
  | Err.Errno err => err
  | Err.WriteError _ err => err
  | _ => 0

/-- Ambient OS state: current errno, the ErrorKind that last_os_error()
would report, whether a native fclose call succeeds, and an optional native
read fault (the stream delivers at most that many bytes and sets the error
indicator instead of the end-of-file indicator). -/
structure Sys where
  errno : Nat
  lastKind : IOKind
  fcloseOk : Bool
  readErr : Option Nat
deriving DecidableEq, Repr

/-- Model of std io Error::last_os_error(): the current errno with its
kind. -/
def lastOsError (s : Sys) : IOError := ⟨s.errno, s.lastKind⟩

/-- State of one open native stream: the file bytes, the current byte
position, and the end-of-file indicator (feof). -/
structure FileState where
  contents : List UInt8
  pos : Nat
  eof : Bool
deriving DecidableEq, Repr

/-- Number of bytes between the current position and the end of file. -/
def avail (st : FileState) : Nat := st.contents.length - st.pos

/-- Model of the native fread(buf, 1, buf.len(), fp): it delivers
min(buf.len(), avail) bytes into the front of the buffer and advances the
position; if fewer bytes than requested were delivered it raises the
end-of-file indicator.  A native read fault (Sys.readErr = some j) instead
delivers at most j bytes and leaves the end-of-file indicator alone.
Returns the count delivered, the updated buffer and the updated stream. -/
def freadBuf (buf : List UInt8) (st : FileState) (s : Sys) :
    Nat × List UInt8 × FileState :=
  let n := buf.length
  match s.readErr with
  | some j =>
      let k := min j (min n (avail st))
      let data := (st.contents.drop st.pos).take k
      (k, data ++ buf.drop k, { st with pos := st.pos + k })
  | none =>
      let k := min n (avail st)
      let data := (st.contents.drop st.pos).take k
      (k, data ++ buf.drop k,
        { st with pos := st.pos + k, eof := st.eof || decide (k < n) })

/-- SeekFrom enum of the standard library, as used by both variants. -/
inductive SeekFrom where
  | Start : Nat → SeekFrom
  | End : Int → SeekFrom
  | Current : Int → SeekFrom
deriving DecidableEq, Repr

/-- Absolute byte offset a seek directive targets. -/
def seekTarget (p : SeekFrom) (st : FileState) : Int :=
  match p with
  | SeekFrom.Start n => (n : Int)
  | SeekFrom.End off => (st.contents.length : Int) + off
  | SeekFrom.Current d => (st.pos : Int) + d

/-- Model of the native fseek: fails (returns -1) when the target offset is
negative, otherwise sets the position, clears the end-of-file indicator and
returns 0. -/
def fseek (p : SeekFrom) (st : FileState) : Int × FileState :=
  let t := seekTarget p st
  if t < 0 then (-1, st)
  else (0, { st with pos := t.toNat, eof := false })

/-- Filesystem model for open/create: the set of existing paths and whether
the native layer is allowed to create a new file. -/
structure FS where
  files : List (List UInt8)
  canCreate : Bool
deriving DecidableEq, Repr

/-- Whether a path currently exists in the filesystem. -/
def fileExists (fs : FS) (p : List UInt8) : Bool := fs.files.contains p

/-- Mode string "rb+" (read+write, no create) from both variants. -/
def RANDOM_ACCESS_MODE : List UInt8 := [114, 98, 43]

/-- Mode string UPDATE, also "rb+", from both variants. -/
def UPDATE : List UInt8 := [114, 98, 43]

/-- Mode string "r" (read only). -/
def READ_ONLY : List UInt8 := [114]

/-- Mode string "a+" (append+read, creates the file when absent). -/
def APPEND_READ : List UInt8 := [97, 43]

/-- Model of the native fopen: read-only and update modes require the file
to exist; the other modes create it when permitted.  Returns whether a
non-null stream was produced, and the filesystem afterwards. -/
def fopenFS (fs : FS) (p mode : List UInt8) : Option Unit × FS :=
  if mode = READ_ONLY then
    (if fileExists fs p then some () else none, fs)
  else if mode = RANDOM_ACCESS_MODE then
    (if fileExists fs p then some () else none, fs)
  else
    if fileExists fs p then (some (), fs)
    else if fs.canCreate then (some (), { fs with files := p :: fs.files })
    else (none, fs)

/-- An open handle as far as the open-path claims need it: the stored copy
of the path (the CString kept in the CFile struct). -/
structure CFileHandle where
  path : List UInt8
deriving DecidableEq, Repr

/-- Legacy CFile::open (src/cfile.rs): CString conversion of the path, then
of the mode, each failing with Error::BadPath on an embedded NUL, then the
native fopen; a null result yields Error::Errno(errno).  The final Nat is
the number of native fopen calls performed. -/
def Legacy.openFile (p mode : List UInt8) (fs : FS) (s : Sys) :
    Except Err CFileHandle × FS × Nat :=
  if p.contains 0 then (Except.error Err.BadPath, fs, 0)
  else if mode.contains 0 then (Except.error Err.BadPath, fs, 0)
  else
    match fopenFS fs p mode with
    | (some _, fs1) => (Except.ok ⟨p⟩, fs1, 1)
    | (none, fs1) => (Except.error (Err.Errno s.errno), fs1, 1)

/-- Revised CFile::open (src/lib.rs): same structure, but every failure
(including a CString conversion failure on an embedded NUL) is reported as
get_error(), i.e. Err(Error::last_os_error()). -/
def Revised.openFile (p mode : List UInt8) (fs : FS) (s : Sys) :
    Except IOError CFileHandle × FS × Nat :=
  if p.contains 0 then (Except.error (lastOsError s), fs, 0)
  else if mode.contains 0 then (Except.error (lastOsError s), fs, 0)
  else
    match fopenFS fs p mode with
    | (some _, fs1) => (Except.ok ⟨p⟩, fs1, 1)
    | (none, fs1) => (Except.error (lastOsError s), fs1, 1)

/-- Legacy CFile::close: a null stored pointer succeeds trivially with no
native call; otherwise fclose runs once; on success the pointer is nulled,
on failure it is left as is.  The handle is the validity of the stored
pointer (true = non-null); the Nat counts native fclose calls. -/
def Legacy.close (ptrValid : Bool) (s : Sys) : Except Err Unit × Bool × Nat :=
  if ptrValid then
    if s.fcloseOk then (Except.ok (), false, 1)
    else (Except.error (Err.Errno s.errno), ptrValid, 1)
  else (Except.ok (), ptrValid, 0)

/-- Legacy Drop for CFile: the same null check and fclose as close, with the
result discarded.  Returns the pointer state and the fclose call count. -/
def Legacy.dropFile (ptrValid : Bool) (s : Sys) : Bool × Nat :=
  if ptrValid then
    (if s.fcloseOk then false else ptrValid, 1)
  else (ptrValid, 0)

/-- Revised CFile::close (src/lib.rs): identical branch structure on the
stored pointer (NonNull wrapping a possibly-null raw pointer, checked with
is_null) with the error reported as last_os_error(). -/
def Revised.close (ptrValid : Bool) (s : Sys) :
    Except IOError Unit × Bool × Nat :=
  if ptrValid then
    if s.fcloseOk then (Except.ok (), false, 1)
    else (Except.error (lastOsError s), ptrValid, 1)
  else (Except.ok (), ptrValid, 0)

/-- Revised Drop for CFile: same null check and fclose, result discarded. -/
def Revised.dropFile (ptrValid : Bool) (s : Sys) : Bool × Nat :=
  if ptrValid then
    (if s.fcloseOk then false else ptrValid, 1)
  else (ptrValid, 0)

/-- Legacy CFile::create_file: open with APPEND_READ and immediately close
the resulting handle (a freshly opened handle has a non-null pointer),
propagating either failure. -/
def Legacy.create_file (p : List UInt8) (fs : FS) (s : Sys) :
    Except Err Unit × FS :=
  match Legacy.openFile p APPEND_READ fs s with
  | (Except.ok _, fs1, _) => ((Legacy.close true s).1, fs1)
  | (Except.error e, fs1, _) => (Except.error e, fs1)

/-- Revised CFile::create_file: same composition in the revised variant. -/
def Revised.create_file (p : List UInt8) (fs : FS) (s : Sys) :
    Except IOError Unit × FS :=
  match Revised.openFile p APPEND_READ fs s with
  | (Except.ok _, fs1, _) => ((Revised.close true s).1, fs1)
  | (Except.error e, fs1, _) => (Except.error e, fs1)

/-- Legacy CFile::open_random_access: run create_file, discard its result,
then open with RANDOM_ACCESS_MODE on the resulting filesystem. -/
def Legacy.open_random_access (p : List UInt8) (fs : FS) (s : Sys) :
    Except Err CFileHandle × FS × Nat :=
  let r := Legacy.create_file p fs s
  Legacy.openFile p RANDOM_ACCESS_MODE r.2 s

/-- Revised CFile::open_random_access: same composition in the revised
variant. -/
def Revised.open_random_access (p : List UInt8) (fs : FS) (s : Sys) :
    Except IOError CFileHandle × FS × Nat :=
  let r := Revised.create_file p fs s
  Revised.openFile p RANDOM_ACCESS_MODE r.2 s

/-- Legacy CFile::write_all: fwrite reports written bytes; a count unequal
to the buffer length fails with WriteError(written, ferror), where written
is the fwrite count and ferr the value of ferror on the stream. -/
def Legacy.write_all (buf : List UInt8) (written ferr : Nat) :
    Except Err Unit :=
  if written ≠ buf.length then Except.error (Err.WriteError written ferr)
  else Except.ok ()

/-- Revised write for CFile (trait method, src/lib.rs): a fwrite count
unequal to the buffer length fails with last_os_error(); otherwise the
count is returned. -/
def Revised.write (buf : List UInt8) (written : Nat) (s : Sys) :
    Except IOError Nat :=
  if written ≠ buf.length then Except.error (lastOsError s)
  else Except.ok written

/-- Revised write_all for CFile: a fwrite count unequal to the buffer
length fails with last_os_error(). -/
def Revised.write_all (buf : List UInt8) (written : Nat) (s : Sys) :
    Except IOError Unit :=
  if written ≠ buf.length then Except.error (lastOsError s)
  else Except.ok ()

/-- Legacy CFile::read_exact: fread, then a full count succeeds; a short
count is EndOfFile(count) when feof is set afterwards and Errno(errno)
otherwise.  Returns the result, the buffer after the read and the stream
state. -/
def Legacy.read_exact (buf : List UInt8) (st : FileState) (s : Sys) :
    Except Err Unit × List UInt8 × FileState :=
  match freadBuf buf st s with
  | (k, buf1, st1) =>
    if k = buf.length then (Except.ok (), buf1, st1)
    else if st1.eof then (Except.error (Err.EndOfFile k), buf1, st1)
    else (Except.error (Err.Errno s.errno), buf1, st1)

/-- Revised read_exact for CFile: same fread and feof check, but both the
end-of-file branch and the other branch call get_error(), so a short count
always fails with last_os_error(). -/
def Revised.read_exact (buf : List UInt8) (st : FileState) (s : Sys) :
    Except IOError Unit × List UInt8 × FileState :=
  match freadBuf buf st s with
  | (k, buf1, st1) =>
    if k = buf.length then (Except.ok (), buf1, st1)
    else if st1.eof then (Except.error (lastOsError s), buf1, st1)
    else (Except.error (lastOsError s), buf1, st1)

/-- Revised read for CFile: fread; a count unequal to the buffer length is
returned as Ok(count) when last_os_error() has kind UnexpectedEof and as
Err(last_os_error()) otherwise; a full count is Ok(count). -/
def Revised.read (buf : List UInt8) (st : FileState) (s : Sys) :
    Except IOError Nat × List UInt8 × FileState :=
  match freadBuf buf st s with
  | (k, buf1, st1) =>
    if k ≠ buf.length then
      if s.lastKind = IOKind.unexpectedEof then (Except.ok k, buf1, st1)
      else (Except.error (lastOsError s), buf1, st1)
    else (Except.ok k, buf1, st1)

/-- Legacy CFile::current_pos: ftell on the model stream always yields the
position, which is representable, so the native query succeeds. -/
def Legacy.current_pos (st : FileState) : Except Err Nat := Except.ok st.pos

/-- Revised current_pos: identical, with the revised error type. -/
def Revised.current_pos (st : FileState) : Except IOError Nat :=
  Except.ok st.pos

/-- Legacy CFile::seek: native fseek with the directive; on a zero return,
re-query and return current_pos; otherwise fail with Errno(errno). -/
def Legacy.seek (p : SeekFrom) (st : FileState) (s : Sys) :
    Except Err Nat × FileState :=
  match fseek p st with
  | (r, st1) =>
    if r = 0 then (Legacy.current_pos st1, st1)
    else (Except.error (Err.Errno s.errno), st1)

/-- Revised seek for CFile: same, failing with last_os_error(). -/
def Revised.seek (p : SeekFrom) (st : FileState) (s : Sys) :
    Except IOError Nat × FileState :=
  match fseek p st with
  | (r, st1) =>
    if r = 0 then (Revised.current_pos st1, st1)
    else (Except.error (lastOsError s), st1)

/-- Expand_buffer from both variants: push the given number of zero bytes
onto the vector (the capacity reservation has no observable effect on the
contents). -/
def expand_buffer (buff : List UInt8) (k : Nat) : List UInt8 :=
  buff ++ List.replicate k 0

/-- Legacy CFile::read_to_end: query the position, seek to the end, query
again; equal positions return Ok(0) at once; otherwise grow the buffer to
the distance when it is shorter, seek back, and read_exact, converting an
EndOfFile(bytes_read) failure into Ok(bytes_read).  The final Nat counts
native fread calls. -/
def Legacy.read_to_end (buf : List UInt8) (st : FileState) (s : Sys) :
    Except Err Nat × List UInt8 × FileState × Nat :=
  let posRes := Legacy.current_pos st
  let st1 := (Legacy.seek (SeekFrom.End 0) st s).2
  let endRes := Legacy.current_pos st1
  match posRes with
  | Except.ok cur_pos =>
    match endRes with
    | Except.ok end_pos =>
      if end_pos = cur_pos then (Except.ok 0, buf, st1, 0)
      else
        let to_read := end_pos - cur_pos
        let buf1 := if buf.length < to_read then
            expand_buffer buf (to_read - buf.length)
          else buf
        let st2 := (Legacy.seek (SeekFrom.Start cur_pos) st1 s).2
        match Legacy.read_exact buf1 st2 s with
        | (Except.ok _, buf2, st3) => (Except.ok to_read, buf2, st3, 1)
        | (Except.error (Err.EndOfFile bytes_read), buf2, st3) =>
            (Except.ok bytes_read, buf2, st3, 1)
        | (Except.error e, buf2, st3) => (Except.error e, buf2, st3, 1)
    | Except.error e => (Except.error e, buf, st1, 0)
  | Except.error e => (Except.error e, buf, st1, 0)

/-- Revised read_to_end for CFile: the same composition, except that every
read_exact failure is propagated unchanged (there is no EndOfFile catch in
the revised variant). -/
def Revised.read_to_end (buf : List UInt8) (st : FileState) (s : Sys) :
    Except IOError Nat × List UInt8 × FileState × Nat :=
  let posRes := Revised.current_pos st
  let st1 := (Revised.seek (SeekFrom.End 0) st s).2
  let endRes := Revised.current_pos st1
  match posRes with
  | Except.ok cur_pos =>
    match endRes with
    | Except.ok end_pos =>
      if end_pos = cur_pos then (Except.ok 0, buf, st1, 0)
      else
        let to_read := end_pos - cur_pos
        let buf1 := if buf.length < to_read then
            expand_buffer buf (to_read - buf.length)
          else buf
        let st2 := (Revised.seek (SeekFrom.Start cur_pos) st1 s).2
        match Revised.read_exact buf1 st2 s with
        | (Except.ok _, buf2, st3) => (Except.ok to_read, buf2, st3, 1)
        | (Except.error e, buf2, st3) => (Except.error e, buf2, st3, 1)
    | Except.error e => (Except.error e, buf, st1, 0)
  | Except.error e => (Except.error e, buf, st1, 0)

/-- Opening in the legacy variant reads the ambient OS state only through
errno, so two states with equal errno give equal open results. -/
theorem Legacy.openFile_errno_only (p m : List UInt8) (fs : FS) (s s' : Sys)
    (h : s.errno = s'.errno) :
    Legacy.openFile p m fs s = Legacy.openFile p m fs s' := by
  unfold Legacy.openFile
  rw [h]

/-- Opening in the revised variant reads the ambient OS state only through
last_os_error(), so two states agreeing there give equal open results. -/
theorem Revised.openFile_last_only (p m : List UInt8) (fs : FS) (s s' : Sys)
    (h : lastOsError s = lastOsError s') :
    Revised.openFile p m fs s = Revised.openFile p m fs s' := by
  unfold Revised.openFile
  rw [h]

/-- The filesystem left behind by the legacy create_file does not depend on
whether the inner native fclose succeeds. -/
theorem legacy_create_file_fs_fclose (p : List UInt8) (fs : FS) (s : Sys)
    (b : Bool) :
    (Legacy.create_file p fs { s with fcloseOk := b }).2 =
      (Legacy.create_file p fs s).2 := by
  unfold Legacy.create_file
  rw [Legacy.openFile_errno_only p APPEND_READ fs { s with fcloseOk := b } s rfl]
  rcases Legacy.openFile p APPEND_READ fs s with ⟨r, fs1, n⟩
  cases r <;> rfl

/-- The filesystem left behind by the revised create_file does not depend
on whether the inner native fclose succeeds. -/
theorem revised_create_file_fs_fclose (p : List UInt8) (fs : FS) (s : Sys)
    (b : Bool) :
    (Revised.create_file p fs { s with fcloseOk := b }).2 =
      (Revised.create_file p fs s).2 := by
  unfold Revised.create_file
  rw [Revised.openFile_last_only p APPEND_READ fs { s with fcloseOk := b } s rfl]
  rcases Revised.openFile p APPEND_READ fs s with ⟨r, fs1, n⟩
  cases r <;> rfl

/-- C10: the legacy Error::errno accessor returns the carried native code
for the Errno and WriteError variants and 0 for the BadPath and EndOfFile
variants, so errno() alone cannot distinguish BadPath from EndOfFile or
from a genuine errno of 0. -/
theorem C10_errno_accessor :
    (∀ e : Nat, Err.errno (Err.Errno e) = e) ∧
    (∀ n e : Nat, Err.errno (Err.WriteError n e) = e) ∧
    Err.errno Err.BadPath = 0 ∧
    (∀ n : Nat, Err.errno (Err.EndOfFile n) = 0) ∧
    Err.errno Err.BadPath = Err.errno (Err.EndOfFile 7) ∧
    Err.errno Err.BadPath = Err.errno (Err.Errno 0) :=
  ⟨fun _ => rfl, fun _ _ => rfl, rfl, fun _ => rfl, rfl, rfl⟩

/-- C8: the native stream is released exactly once: closing a handle whose
stored pointer is already null succeeds trivially with no native fclose (as
does the teardown), and after a successful explicit close the pointer is
nulled so that the scope-end teardown adds no second native fclose; this
holds in both variants. -/
theorem C8_close_exactly_once (s : Sys) :
    Legacy.close false s = (Except.ok (), false, 0) ∧
    Revised.close false s = (Except.ok (), false, 0) ∧
    Legacy.dropFile false s = (false, 0) ∧
    Revised.dropFile false s = (false, 0) ∧
    (s.fcloseOk = true →
      Legacy.close true s = (Except.ok (), false, 1) ∧
      (Legacy.close true s).2.2 +
        (Legacy.dropFile (Legacy.close true s).2.1 s).2 = 1 ∧
      Revised.close true s = (Except.ok (), false, 1) ∧
      (Revised.close true s).2.2 +
        (Revised.dropFile (Revised.close true s).2.1 s).2 = 1) := by
  refine ⟨rfl, rfl, rfl, rfl, fun h => ?_⟩
  simp [Legacy.close, Revised.close, Legacy.dropFile, Revised.dropFile, h]

/-- Witness for C8 at a concrete OS state with a succeeding fclose. -/
theorem C8_close_exactly_once_witness :
    (⟨3, IOKind.other, true, none⟩ : Sys).fcloseOk = true ∧
    Legacy.close true ⟨3, IOKind.other, true, none⟩ =
      (Except.ok (), false, 1) :=
  ⟨rfl, ((C8_close_exactly_once ⟨3, IOKind.other, true, none⟩).2.2.2.2 rfl).1⟩

/-- C9: open_random_access runs the existence-ensuring create_file step,
discards its result, and returns exactly the result of open with
RANDOM_ACCESS_MODE (which is the same string as UPDATE, namely "rb+") on
the filesystem as left by the creation step; varying whether the creation
step's inner close succeeds (and with it the discarded result) leaves the
outcome unchanged.  Both variants. -/
theorem C9_open_random_access :
    RANDOM_ACCESS_MODE = UPDATE ∧
    (∀ (p : List UInt8) (fs : FS) (s : Sys),
      Legacy.open_random_access p fs s =
        Legacy.openFile p RANDOM_ACCESS_MODE (Legacy.create_file p fs s).2 s ∧
      Revised.open_random_access p fs s =
        Revised.openFile p RANDOM_ACCESS_MODE
          (Revised.create_file p fs s).2 s) ∧
    (∀ (p : List UInt8) (fs : FS) (s : Sys) (b : Bool),
      Legacy.open_random_access p fs { s with fcloseOk := b } =
        Legacy.open_random_access p fs s ∧
      Revised.open_random_access p fs { s with fcloseOk := b } =
        Revised.open_random_access p fs s) := by
  refine ⟨rfl, fun p fs s => ⟨rfl, rfl⟩, fun p fs s b => ⟨?_, ?_⟩⟩
  · show Legacy.openFile p RANDOM_ACCESS_MODE
        (Legacy.create_file p fs { s with fcloseOk := b }).2
        { s with fcloseOk := b } =
      Legacy.openFile p RANDOM_ACCESS_MODE (Legacy.create_file p fs s).2 s
    rw [legacy_create_file_fs_fclose p fs s b]
    exact Legacy.openFile_errno_only p RANDOM_ACCESS_MODE _
      { s with fcloseOk := b } s rfl
  · show Revised.openFile p RANDOM_ACCESS_MODE
        (Revised.create_file p fs { s with fcloseOk := b }).2
        { s with fcloseOk := b } =
      Revised.openFile p RANDOM_ACCESS_MODE (Revised.create_file p fs s).2 s
    rw [revised_create_file_fs_fclose p fs s b]
    exact Revised.openFile_last_only p RANDOM_ACCESS_MODE _
      { s with fcloseOk := b } s rfl

/-- C1 counterexample: the revised open on a path with an embedded NUL byte
does not fail with a dedicated invalid-path error: it returns
Err(last_os_error()), so the reported error varies with the ambient errno
(here 5 versus 7) although path, mode and filesystem are fixed. -/
theorem C1_counterexample :
    (Revised.openFile [97, 0] [114] ⟨[], true⟩
        ⟨5, IOKind.other, true, none⟩).1 =
      Except.error ⟨5, IOKind.other⟩ ∧
    (Revised.openFile [97, 0] [114] ⟨[], true⟩
        ⟨7, IOKind.other, true, none⟩).1 =
      Except.error ⟨7, IOKind.other⟩ ∧
    (Except.error ⟨5, IOKind.other⟩ : Except IOError CFileHandle) ≠
      Except.error ⟨7, IOKind.other⟩ :=
  ⟨rfl, rfl, by decide⟩

/-- C1 (amended): if the path or the mode contains an embedded NUL byte,
the legacy open fails with Error::BadPath and the revised open fails with
Err(last_os_error()) (the ambient OS error, which carries no invalid-path
indication), and neither variant performs a native fopen call. -/
theorem C1_nul_byte_open (p mode : List UInt8) (fs : FS) (s : Sys)
    (h : p.contains 0 = true ∨ mode.contains 0 = true) :
    Legacy.openFile p mode fs s = (Except.error Err.BadPath, fs, 0) ∧
    Revised.openFile p mode fs s =
      (Except.error (lastOsError s), fs, 0) := by
  cases hp : p.contains 0
  · have hm : mode.contains 0 = true := by
      rcases h with h | h
      · rw [hp] at h; exact absurd h (by simp)
      · exact h
    simp only [Legacy.openFile, Revised.openFile, hp, hm]
    simp
  · simp only [Legacy.openFile, Revised.openFile, hp]
    simp

/-- Witness for C1 at the concrete NUL-containing path "a\x00" with mode
"r". -/
theorem C1_nul_byte_open_witness :
    (([97, 0] : List UInt8).contains 0 = true ∨
      ([114] : List UInt8).contains 0 = true) ∧
    Legacy.openFile [97, 0] [114] ⟨[], true⟩ ⟨5, IOKind.other, true, none⟩ =
      (Except.error Err.BadPath, ⟨[], true⟩, 0) :=
  ⟨Or.inl (by decide),
    (C1_nul_byte_open [97, 0] [114] ⟨[], true⟩ ⟨5, IOKind.other, true, none⟩
      (Or.inl (by decide))).1⟩

/-- C2 counterexample: a short native write (0 of 1 bytes) is not returned
by the revised write as Ok(0); it fails with last_os_error(). -/
theorem C2_counterexample :
    Revised.write [42] 0 ⟨5, IOKind.other, true, none⟩ =
      Except.error ⟨5, IOKind.other⟩ ∧
    Revised.write [42] 0 ⟨5, IOKind.other, true, none⟩ ≠ Except.ok 0 :=
  ⟨rfl, by decide⟩

/-- C2 (amended): the revised write returns Ok(buf.len()) exactly when the
native write count equals buf.len() and otherwise fails with the OS error
(a short write is reported as an error, not as a count); write_all returns
Ok(()) exactly when the count equals buf.len(), and otherwise fails with
the OS error in the revised variant and with WriteError(partial, ferror) in
the legacy variant. -/
theorem C2_write_write_all (buf : List UInt8) (n ferr : Nat) (s : Sys) :
    (Revised.write buf n s = Except.ok n ↔ n = buf.length) ∧
    (n ≠ buf.length →
      Revised.write buf n s = Except.error (lastOsError s)) ∧
    (Revised.write_all buf n s = Except.ok () ↔ n = buf.length) ∧
    (n ≠ buf.length →
      Revised.write_all buf n s = Except.error (lastOsError s)) ∧
    (Legacy.write_all buf n ferr = Except.ok () ↔ n = buf.length) ∧
    (n ≠ buf.length →
      Legacy.write_all buf n ferr =
        Except.error (Err.WriteError n ferr)) := by
  unfold Revised.write Revised.write_all Legacy.write_all
  by_cases h : n = buf.length <;> simp [h]

/-- Witness for C2 at a concrete short write of 0 of 1 bytes. -/
theorem C2_write_write_all_witness :
    (0 ≠ ([42] : List UInt8).length) ∧
    Revised.write [42] 0 ⟨9, IOKind.other, true, none⟩ =
      Except.error (lastOsError ⟨9, IOKind.other, true, none⟩) :=
  ⟨by decide,
    (C2_write_write_all [42] 0 0 ⟨9, IOKind.other, true, none⟩).2.1
      (by decide)⟩

/-- C3 counterexample: on the 2-byte file [1, 2] with a 5-byte buffer the
native read delivers 2 bytes and raises end-of-file, but the revised read
reports Err(last_os_error()) (whose kind is not UnexpectedEof; a real
end-of-file leaves errno untouched) instead of Ok(2). -/
theorem C3_counterexample :
    (Revised.read (List.replicate 5 0) ⟨[1, 2], 0, false⟩
        ⟨0, IOKind.other, true, none⟩).1 =
      Except.error ⟨0, IOKind.other⟩ ∧
    (Revised.read (List.replicate 5 0) ⟨[1, 2], 0, false⟩
        ⟨0, IOKind.other, true, none⟩).1 ≠ Except.ok 2 := by
  constructor
  · rfl
  · decide

/-- C3 (amended): the revised read returns Ok(count) when the native read
fills the buffer; on a short read it returns Ok(count) exactly when
last_os_error() currently has kind UnexpectedEof, and otherwise fails with
last_os_error() — in particular a short read at end-of-file is reported as
an error whenever the ambient error kind is not UnexpectedEof. -/
theorem C3_read_short (buf : List UInt8) (st : FileState) (s : Sys) :
    ((freadBuf buf st s).1 = buf.length →
      (Revised.read buf st s).1 = Except.ok (freadBuf buf st s).1) ∧
    ((freadBuf buf st s).1 ≠ buf.length →
      (s.lastKind = IOKind.unexpectedEof →
        (Revised.read buf st s).1 = Except.ok (freadBuf buf st s).1) ∧
      (s.lastKind ≠ IOKind.unexpectedEof →
        (Revised.read buf st s).1 = Except.error (lastOsError s))) := by
  unfold Revised.read
  rcases hf : freadBuf buf st s with ⟨k, buf1, st1⟩
  by_cases hk : k = buf.length <;>
    by_cases hl : s.lastKind = IOKind.unexpectedEof <;>
      simp [hk, hl]

/-- Witness for C3: a concrete end-of-file short read (1 of 3 bytes) with
an ambient error kind that is not UnexpectedEof is reported as the OS
error. -/
theorem C3_read_short_witness :
    ((freadBuf [0, 0, 0] ⟨[1], 0, false⟩ ⟨4, IOKind.other, true, none⟩).1 ≠
      ([0, 0, 0] : List UInt8).length) ∧
    ((⟨4, IOKind.other, true, none⟩ : Sys).lastKind ≠
      IOKind.unexpectedEof) ∧
    (Revised.read [0, 0, 0] ⟨[1], 0, false⟩
        ⟨4, IOKind.other, true, none⟩).1 =
      Except.error (lastOsError ⟨4, IOKind.other, true, none⟩) :=
  ⟨by decide, by decide,
    ((C3_read_short [0, 0, 0] ⟨[1], 0, false⟩
        ⟨4, IOKind.other, true, none⟩).2 (by decide)).2 (by decide)⟩

/-- C7: seek with each of the three origins: when the target offset is
non-negative the native fseek succeeds, both variants return the resulting
absolute position, and that value is exactly what an immediately following
current_pos reports; when the target is negative the native fseek fails and
both variants return the OS error with the stream unchanged. -/
theorem C7_seek (p : SeekFrom) (st : FileState) (s : Sys) :
    (0 ≤ seekTarget p st →
      Legacy.seek p st s =
        (Except.ok (seekTarget p st).toNat,
          ⟨st.contents, (seekTarget p st).toNat, false⟩) ∧
      Revised.seek p st s =
        (Except.ok (seekTarget p st).toNat,
          ⟨st.contents, (seekTarget p st).toNat, false⟩) ∧
      Legacy.current_pos (Legacy.seek p st s).2 = (Legacy.seek p st s).1 ∧
      Revised.current_pos (Revised.seek p st s).2 =
        (Revised.seek p st s).1) ∧
    (seekTarget p st < 0 →
      Legacy.seek p st s = (Except.error (Err.Errno s.errno), st) ∧
      Revised.seek p st s = (Except.error (lastOsError s), st)) := by
  constructor
  · intro h
    have hn : ¬ seekTarget p st < 0 := by omega
    simp [Legacy.seek, Revised.seek, fseek, hn, Legacy.current_pos,
      Revised.current_pos]
  · intro h
    simp [Legacy.seek, Revised.seek, fseek, h]

/-- Witness for C7: one successful seek (from the current position) and one
failing seek (to a negative offset) on a concrete 3-byte stream. -/
theorem C7_seek_witness :
    (0 ≤ seekTarget (SeekFrom.Current 1) ⟨[1, 2, 3], 1, false⟩ ∧
      Legacy.seek (SeekFrom.Current 1) ⟨[1, 2, 3], 1, false⟩
          ⟨6, IOKind.other, true, none⟩ =
        (Except.ok 2, ⟨[1, 2, 3], 2, false⟩)) ∧
    (seekTarget (SeekFrom.Current (-2)) ⟨[1, 2, 3], 1, false⟩ < 0 ∧
      Legacy.seek (SeekFrom.Current (-2)) ⟨[1, 2, 3], 1, false⟩
          ⟨6, IOKind.other, true, none⟩ =
        (Except.error (Err.Errno 6), ⟨[1, 2, 3], 1, false⟩)) :=
  ⟨⟨by decide,
    ((C7_seek (SeekFrom.Current 1) ⟨[1, 2, 3], 1, false⟩
        ⟨6, IOKind.other, true, none⟩).1 (by decide)).1⟩,
   ⟨by decide,
    ((C7_seek (SeekFrom.Current (-2)) ⟨[1, 2, 3], 1, false⟩
        ⟨6, IOKind.other, true, none⟩).2 (by decide)).1⟩⟩

/-- Characterization of the modelled native read: the delivered count never
exceeds the request or the remaining bytes, and the buffer afterwards is
the bytes read followed by the untouched tail of the original buffer. -/
theorem freadBuf_spec (buf : List UInt8) (st : FileState) (s : Sys) :
    (freadBuf buf st s).1 ≤ buf.length ∧
    (freadBuf buf st s).1 ≤ avail st ∧
    (freadBuf buf st s).2.1 =
      (st.contents.drop st.pos).take (freadBuf buf st s).1 ++
        buf.drop (freadBuf buf st s).1 := by
  unfold freadBuf
  cases s.readErr <;> refine ⟨?_, ?_, rfl⟩ <;> dsimp only <;> omega

/-- The delivered bytes sit in the front of the buffer: taking the
delivered count from the buffer after the read yields exactly the file
bytes starting at the original position. -/
theorem freadBuf_take (buf : List UInt8) (st : FileState) (s : Sys) :
    ((freadBuf buf st s).2.1).take (freadBuf buf st s).1 =
      (st.contents.drop st.pos).take (freadBuf buf st s).1 := by
  obtain ⟨h1, h2, h3⟩ := freadBuf_spec buf st s
  rw [h3, List.take_append_of_le_length, List.take_take, min_self]
  rw [List.length_take, List.length_drop]
  simp only [avail] at h2
  omega

/-- C4: read_exact succeeds exactly when the native read delivers
buf.len() bytes; on a short count the legacy variant reports
EndOfFile(count) when the end-of-file indicator is set afterwards and
Errno(errno) otherwise, while the revised variant reports the OS error in
both cases; and in every case the bytes that were read sit in the prefix of
the buffer. -/
theorem C4_read_exact (buf : List UInt8) (st : FileState) (s : Sys) :
    ((Legacy.read_exact buf st s).1 = Except.ok () ↔
      (freadBuf buf st s).1 = buf.length) ∧
    ((Revised.read_exact buf st s).1 = Except.ok () ↔
      (freadBuf buf st s).1 = buf.length) ∧
    ((freadBuf buf st s).1 ≠ buf.length →
      ((freadBuf buf st s).2.2.eof = true →
        (Legacy.read_exact buf st s).1 =
          Except.error (Err.EndOfFile (freadBuf buf st s).1)) ∧
      ((freadBuf buf st s).2.2.eof = false →
        (Legacy.read_exact buf st s).1 =
          Except.error (Err.Errno s.errno)) ∧
      (Revised.read_exact buf st s).1 = Except.error (lastOsError s)) ∧
    (Legacy.read_exact buf st s).2.1 = (freadBuf buf st s).2.1 ∧
    (Revised.read_exact buf st s).2.1 = (freadBuf buf st s).2.1 ∧
    ((freadBuf buf st s).2.1).take (freadBuf buf st s).1 =
      (st.contents.drop st.pos).take (freadBuf buf st s).1 := by
  have htake := freadBuf_take buf st s
  unfold Legacy.read_exact Revised.read_exact
  rcases hf : freadBuf buf st s with ⟨k, buf1, st1⟩
  rw [hf] at htake
  dsimp only at htake ⊢
  by_cases hk : k = buf.length
  · subst hk
    simp [htake]
  · cases he : st1.eof <;> simp [hk, he, htake]

/-- Witness for C4: a concrete short read of 1 of 2 requested bytes at
end-of-file is reported by the legacy read_exact as EndOfFile(1). -/
theorem C4_read_exact_witness :
    ((freadBuf [0, 0] ⟨[5], 0, false⟩ ⟨8, IOKind.other, true, none⟩).1 ≠
      ([0, 0] : List UInt8).length) ∧
    ((freadBuf [0, 0] ⟨[5], 0, false⟩
        ⟨8, IOKind.other, true, none⟩).2.2.eof = true) ∧
    (Legacy.read_exact [0, 0] ⟨[5], 0, false⟩
        ⟨8, IOKind.other, true, none⟩).1 =
      Except.error (Err.EndOfFile
        (freadBuf [0, 0] ⟨[5], 0, false⟩ ⟨8, IOKind.other, true, none⟩).1) :=
  ⟨by decide, by decide,
    ((C4_read_exact [0, 0] ⟨[5], 0, false⟩
        ⟨8, IOKind.other, true, none⟩).2.2.1 (by decide)).1 (by decide)⟩

/-- Seeking to End(0) always succeeds and puts the position at the file
length, clearing the end-of-file indicator. -/
theorem fseek_end_zero (st : FileState) :
    fseek (SeekFrom.End 0) st =
      (0, ⟨st.contents, st.contents.length, false⟩) := by
  unfold fseek seekTarget
  simp

/-- Seeking to Start(n) always succeeds and puts the position at n,
clearing the end-of-file indicator. -/
theorem fseek_start (n : Nat) (st : FileState) :
    fseek (SeekFrom.Start n) st = (0, ⟨st.contents, n, false⟩) := by
  unfold fseek seekTarget
  simp

/-- C6: read_to_end at end-of-file: when the current position equals the
file length both variants return Ok(0) with no native read call and with
the caller's buffer unchanged in length and contents (the stream has merely
been sought to its end, clearing the end-of-file indicator). -/
theorem C6_read_to_end_at_eof (c buf : List UInt8) (e : Bool) (s : Sys) :
    Legacy.read_to_end buf ⟨c, c.length, e⟩ s =
      (Except.ok 0, buf, ⟨c, c.length, false⟩, 0) ∧
    Revised.read_to_end buf ⟨c, c.length, e⟩ s =
      (Except.ok 0, buf, ⟨c, c.length, false⟩, 0) := by
  simp [Legacy.read_to_end, Revised.read_to_end, Legacy.seek, Revised.seek,
    fseek_end_zero, fseek_start, Legacy.current_pos, Revised.current_pos]

/-- With no native read fault the modelled native read is fully
determined: it delivers min(request, remaining) bytes and raises the
end-of-file indicator exactly on a short delivery. -/
theorem freadBuf_clean (c b1 : List UInt8) (P : Nat) (e : Bool) (s : Sys)
    (hr : s.readErr = none) :
    freadBuf b1 ⟨c, P, e⟩ s =
      (min b1.length (c.length - P),
       (c.drop P).take (min b1.length (c.length - P)) ++
         b1.drop (min b1.length (c.length - P)),
       ⟨c, P + min b1.length (c.length - P),
         e || decide (min b1.length (c.length - P) < b1.length)⟩) := by
  unfold freadBuf
  rw [hr]
  rfl

/-- Legacy seek to End(0) returns the file length as the new position. -/
theorem legacy_seek_end_zero (st : FileState) (s : Sys) :
    Legacy.seek (SeekFrom.End 0) st s =
      (Except.ok st.contents.length,
        ⟨st.contents, st.contents.length, false⟩) := by
  unfold Legacy.seek
  rw [fseek_end_zero]
  rfl

/-- Legacy seek to Start(n) returns n as the new position. -/
theorem legacy_seek_start (n : Nat) (st : FileState) (s : Sys) :
    Legacy.seek (SeekFrom.Start n) st s =
      (Except.ok n, ⟨st.contents, n, false⟩) := by
  unfold Legacy.seek
  rw [fseek_start]
  rfl

/-- Revised seek to End(0) returns the file length as the new position. -/
theorem revised_seek_end_zero (st : FileState) (s : Sys) :
    Revised.seek (SeekFrom.End 0) st s =
      (Except.ok st.contents.length,
        ⟨st.contents, st.contents.length, false⟩) := by
  unfold Revised.seek
  rw [fseek_end_zero]
  rfl

/-- Revised seek to Start(n) returns n as the new position. -/
theorem revised_seek_start (n : Nat) (st : FileState) (s : Sys) :
    Revised.seek (SeekFrom.Start n) st s =
      (Except.ok n, ⟨st.contents, n, false⟩) := by
  unfold Revised.seek
  rw [fseek_start]
  rfl

/-- Legacy read_exact from a clean position with a buffer of exactly the
remaining length reads the whole tail successfully. -/
theorem legacy_read_exact_all (c b1 : List UInt8) (P : Nat) (s : Sys)
    (hr : s.readErr = none) (hP : P ≤ c.length)
    (hb1 : b1.length = c.length - P) :
    Legacy.read_exact b1 ⟨c, P, false⟩ s =
      (Except.ok (), c.drop P, ⟨c, c.length, false⟩) := by
  have htk : (c.drop P).take (c.length - P) = c.drop P :=
    List.take_of_length_le (by simp)
  have hdr : b1.drop (c.length - P) = [] := by
    rw [← hb1, List.drop_length]
  have hPL : P + (c.length - P) = c.length := by omega
  unfold Legacy.read_exact
  rw [freadBuf_clean c b1 P false s hr]
  dsimp only
  simp [hb1, htk, hdr, hPL]

/-- Revised read_exact from a clean position with a buffer of exactly the
remaining length reads the whole tail successfully. -/
theorem revised_read_exact_all (c b1 : List UInt8) (P : Nat) (s : Sys)
    (hr : s.readErr = none) (hP : P ≤ c.length)
    (hb1 : b1.length = c.length - P) :
    Revised.read_exact b1 ⟨c, P, false⟩ s =
      (Except.ok (), c.drop P, ⟨c, c.length, false⟩) := by
  have htk : (c.drop P).take (c.length - P) = c.drop P :=
    List.take_of_length_le (by simp)
  have hdr : b1.drop (c.length - P) = [] := by
    rw [← hb1, List.drop_length]
  have hPL : P + (c.length - P) = c.length := by omega
  unfold Revised.read_exact
  rw [freadBuf_clean c b1 P false s hr]
  dsimp only
  simp [hb1, htk, hdr, hPL]

/-- Legacy read_exact from a clean position with a buffer longer than the
remaining bytes hits end-of-file and fails with EndOfFile(remaining),
leaving the tail bytes in the buffer prefix. -/
theorem legacy_read_exact_long (c b1 : List UInt8) (P : Nat) (s : Sys)
    (hr : s.readErr = none) (hP : P ≤ c.length)
    (hb1 : c.length - P < b1.length) :
    Legacy.read_exact b1 ⟨c, P, false⟩ s =
      (Except.error (Err.EndOfFile (c.length - P)),
       c.drop P ++ b1.drop (c.length - P), ⟨c, c.length, true⟩) := by
  have hmin : min b1.length (c.length - P) = c.length - P := by omega
  have hcond : ¬ (c.length - P = b1.length) := by omega
  have htk : (c.drop P).take (c.length - P) = c.drop P :=
    List.take_of_length_le (by simp)
  have hPL : P + (c.length - P) = c.length := by omega
  unfold Legacy.read_exact
  rw [freadBuf_clean c b1 P false s hr]
  dsimp only
  simp [hmin, hcond, htk, hPL, hb1]

/-- Revised read_exact from a clean position with a buffer longer than the
remaining bytes hits end-of-file and fails with the ambient OS error,
leaving the tail bytes in the buffer prefix. -/
theorem revised_read_exact_long (c b1 : List UInt8) (P : Nat) (s : Sys)
    (hr : s.readErr = none) (hP : P ≤ c.length)
    (hb1 : c.length - P < b1.length) :
    Revised.read_exact b1 ⟨c, P, false⟩ s =
      (Except.error (lastOsError s),
       c.drop P ++ b1.drop (c.length - P), ⟨c, c.length, true⟩) := by
  have hmin : min b1.length (c.length - P) = c.length - P := by omega
  have hcond : ¬ (c.length - P = b1.length) := by omega
  have htk : (c.drop P).take (c.length - P) = c.drop P :=
    List.take_of_length_le (by simp)
  have hPL : P + (c.length - P) = c.length := by omega
  unfold Revised.read_exact
  rw [freadBuf_clean c b1 P false s hr]
  dsimp only
  simp [hmin, hcond, htk, hPL, hb1]

/-- C5 counterexample: on the file [1, 2, 3] at position 1 with a caller
buffer of 5 bytes (longer than the 2 remaining bytes), the revised
read_to_end returns the ambient OS error instead of Ok(2). -/
theorem C5_counterexample :
    (Revised.read_to_end (List.replicate 5 0) ⟨[1, 2, 3], 1, false⟩
        ⟨9, IOKind.other, true, none⟩).1 =
      Except.error ⟨9, IOKind.other⟩ ∧
    (Revised.read_to_end (List.replicate 5 0) ⟨[1, 2, 3], 1, false⟩
        ⟨9, IOKind.other, true, none⟩).1 ≠ Except.ok 2 := by
  constructor
  · rfl
  · decide

/-- C5 (amended): from position P < L with no native read fault, the legacy
read_to_end returns Ok(L-P) with the file tail from P in the buffer prefix
whatever the caller's initial buffer length; the revised variant does the
same when the initial buffer length is at most L-P, but when the buffer is
longer it propagates the short-read OS error instead of the count. -/
theorem C5_read_to_end (c buf : List UInt8) (P : Nat) (e : Bool) (s : Sys)
    (hP : P < c.length) (hr : s.readErr = none) :
    (Legacy.read_to_end buf ⟨c, P, e⟩ s).1 = Except.ok (c.length - P) ∧
    ((Legacy.read_to_end buf ⟨c, P, e⟩ s).2.1).take (c.length - P) =
      c.drop P ∧
    (buf.length ≤ c.length - P →
      (Revised.read_to_end buf ⟨c, P, e⟩ s).1 =
        Except.ok (c.length - P) ∧
      ((Revised.read_to_end buf ⟨c, P, e⟩ s).2.1).take (c.length - P) =
        c.drop P) ∧
    (c.length - P < buf.length →
      (Revised.read_to_end buf ⟨c, P, e⟩ s).1 =
        Except.error (lastOsError s)) := by
  have hPle : P ≤ c.length := le_of_lt hP
  have hne : ¬ (c.length = P) := by omega
  have htk : (c.drop P).take (c.length - P) = c.drop P :=
    List.take_of_length_le (by simp)
  rcases lt_trichotomy buf.length (c.length - P) with hlen | hlen | hlen
  · have hb1 : (expand_buffer buf (c.length - P - buf.length)).length =
        c.length - P := by
      simp [expand_buffer]
      omega
    have hL := legacy_read_exact_all c _ P s hr hPle hb1
    have hR := revised_read_exact_all c _ P s hr hPle hb1
    refine ⟨?_, ?_, fun _ => ⟨?_, ?_⟩, fun h => absurd h (by omega)⟩ <;>
      simp [Legacy.read_to_end, Revised.read_to_end, legacy_seek_end_zero,
        revised_seek_end_zero, legacy_seek_start, revised_seek_start,
        Legacy.current_pos, Revised.current_pos, hne, hlen, hL, hR, htk]
  · have hb1 : buf.length = c.length - P := hlen
    have hnotlt : ¬ (buf.length < c.length - P) := by omega
    have hL := legacy_read_exact_all c buf P s hr hPle hb1
    have hR := revised_read_exact_all c buf P s hr hPle hb1
    refine ⟨?_, ?_, fun _ => ⟨?_, ?_⟩, fun h => absurd h (by omega)⟩ <;>
      simp [Legacy.read_to_end, Revised.read_to_end, legacy_seek_end_zero,
        revised_seek_end_zero, legacy_seek_start, revised_seek_start,
        Legacy.current_pos, Revised.current_pos, hne, hnotlt, hL, hR, htk]
  · have hnotlt : ¬ (buf.length < c.length - P) := by omega
    have hL := legacy_read_exact_long c buf P s hr hPle hlen
    have hR := revised_read_exact_long c buf P s hr hPle hlen
    have htk2 : (c.drop P ++ buf.drop (c.length - P)).take (c.length - P) =
        c.drop P :=
      List.take_left' (by simp)
    refine ⟨?_, ?_, fun h => absurd h (by omega), fun _ => ?_⟩ <;>
      simp [Legacy.read_to_end, Revised.read_to_end, legacy_seek_end_zero,
        revised_seek_end_zero, legacy_seek_start, revised_seek_start,
        Legacy.current_pos, Revised.current_pos, hne, hnotlt, hL, hR, htk2]

/-- Witness for C5: a concrete run on the file [1, 2, 3] from position 1
with an empty caller buffer (legacy) and with a 5-byte caller buffer
(revised error case). -/
theorem C5_read_to_end_witness :
    (1 < ([1, 2, 3] : List UInt8).length ∧
      (⟨9, IOKind.other, true, none⟩ : Sys).readErr = none ∧
      (Legacy.read_to_end [] ⟨[1, 2, 3], 1, false⟩
          ⟨9, IOKind.other, true, none⟩).1 = Except.ok 2) ∧
    (2 < (List.replicate 5 (0 : UInt8)).length ∧
      (Revised.read_to_end (List.replicate 5 0) ⟨[1, 2, 3], 1, false⟩
          ⟨9, IOKind.other, true, none⟩).1 =
        Except.error (lastOsError ⟨9, IOKind.other, true, none⟩)) := by
  constructor
  · exact ⟨by decide, rfl,
      (C5_read_to_end [1, 2, 3] [] 1 false ⟨9, IOKind.other, true, none⟩
        (by decide) rfl).1⟩
  · exact ⟨by decide,
      (C5_read_to_end [1, 2, 3] (List.replicate 5 0) 1 false
        ⟨9, IOKind.other, true, none⟩ (by decide) rfl).2.2.2 (by decide)⟩

end CFileSpec
